import Mathlib

set_option maxRecDepth 100000

/-! Verification of the reconciliation engine of `app.py`: field
normalization (`str.lower().strip()`, digit filtering, separator
replacement), per-field similarity scoring (fuzzywuzzy's `fuzz.ratio` and
`fuzz.token_sort_ratio`, whose pure-Python path is difflib's
`SequenceMatcher`), and the decision logic of `compare_extracted_info`.
Characters are modelled at ASCII fidelity (Python's `str.lower`, `str.strip`
and `str.isdigit` are Unicode-aware; every value handled by this application
is ASCII), and strings stay below difflib's autojunk threshold of 200
characters, so no junk heuristic applies. -/

/-- Python whitespace test used by `str.strip` and `str.split`, in the ASCII
range: tab, line feed, vertical tab, form feed, carriage return (code points
9 to 13) and the space (code point 32). -/
def isSpace (c : Char) : Bool :=
  decide ((9 ≤ c.toNat ∧ c.toNat ≤ 13) ∨ c.toNat = 32)

/-- Python `str.lower` on one character (ASCII range). -/
def lowerChar (c : Char) : Char :=
  if 65 ≤ c.toNat ∧ c.toNat ≤ 90 then Char.ofNat (c.toNat + 32) else c

/-- Python `str.lower` over all characters of a string. -/
def lowerL (l : List Char) : List Char := l.map lowerChar

/-- Python `str.strip`: remove leading and trailing whitespace. -/
def stripL (l : List Char) : List Char :=
  ((l.dropWhile isSpace).reverse.dropWhile isSpace).reverse

/-- Normalization performed by `compare_with_fuzzy_match` (app.py lines
204-205): `str.lower().strip()`. -/
def fuzzy_norm (s : String) : String := ⟨stripL (lowerL s.data)⟩

/-- Length of the common run of two character lists starting at their heads. -/
def runLen : List Char → List Char → Nat
  | a :: as, b :: bs => if a = b then runLen as bs + 1 else 0
  | _, _ => 0

/-- difflib `SequenceMatcher.find_longest_match` on junk-free inputs: the
longest common substring, ties resolved towards the smallest start position
in `a`, then the smallest start position in `b`; the result is
(start in a, start in b, length). -/
def bestMatch (a b : List Char) : Nat × Nat × Nat :=
  (List.range a.length).foldl (fun best i =>
    (List.range b.length).foldl (fun best j =>
      let k := runLen (a.drop i) (b.drop j)
      if best.2.2 < k then (i, j, k) else best) best) (0, 0, 0)

/-- difflib `SequenceMatcher.get_matching_blocks`: total size of the matching
blocks, obtained by recursing on both sides of the longest match.  The fuel
argument bounds the recursion depth; each level strictly shortens `a`, so any
fuel above `a.length` is enough. -/
def matchTotal : Nat → List Char → List Char → Nat
  | 0, _, _ => 0
  | fuel + 1, a, b =>
    let m := bestMatch a b
    if m.2.2 = 0 then 0
    else
      matchTotal fuel (a.take m.1) (b.take m.2.1) + m.2.2 +
        matchTotal fuel (a.drop (m.1 + m.2.2)) (b.drop (m.2.1 + m.2.2))

/-- Python `round` (round half to even) of the exact rational `num / den`. -/
def roundHalfEven (num den : Nat) : Nat :=
  if 2 * (num % den) < den then num / den
  else if den < 2 * (num % den) then num / den + 1
  else if num / den % 2 = 0 then num / den else num / den + 1

/-- fuzzywuzzy `fuzz.ratio`: 0 when either side is empty (the
`check_empty_string` decorator), otherwise `round(100 * 2 * M / T)` where `M`
is the total size of difflib's matching blocks and `T` the sum of the two
lengths. -/
def ratioScore (s1 s2 : String) : Nat :=
  if s1.data.length = 0 || s2.data.length = 0 then 0
  else
    roundHalfEven (200 * matchTotal (s1.data.length + 1) s1.data s2.data)
      (s1.data.length + s2.data.length)

/-- Word characters of the `\W` regex used by fuzzywuzzy `full_process`
(ASCII range): letters, digits and the underscore. -/
def isWordChar (c : Char) : Bool := c.isAlphanum || c = '_'

/-- fuzzywuzzy `utils.full_process`: replace every non-word character by a
space, lowercase, then strip. -/
def full_process (s : String) : String :=
  ⟨stripL (lowerL (s.data.map (fun c => if isWordChar c then c else ' ')))⟩

/-- Python `str.split()` with no argument: split on runs of whitespace,
discarding empty pieces.  The first argument is the rest of the input, the
second the (reversed) token being accumulated. -/
def splitWs : List Char → List Char → List (List Char)
  | [], acc => if acc.isEmpty then [] else [acc.reverse]
  | c :: cs, acc =>
    if isSpace c then
      if acc.isEmpty then splitWs cs [] else acc.reverse :: splitWs cs []
    else splitWs cs (c :: acc)

/-- Python string comparison: lexicographic on code points. -/
def lexLe : List Char → List Char → Bool
  | [], _ => true
  | _ :: _, [] => false
  | a :: as, b :: bs =>
    if a.toNat < b.toNat then true
    else if b.toNat < a.toNat then false
    else lexLe as bs

/-- Insert into a `lexLe`-sorted list of tokens. -/
def insertLe (x : List Char) : List (List Char) → List (List Char)
  | [] => [x]
  | y :: ys => if lexLe x y then x :: y :: ys else y :: insertLe x ys

/-- Insertion sort by `lexLe`.  `lexLe` is a total antisymmetric order on
token lists, so the sorted permutation is unique and this computes exactly
what Python `sorted` returns. -/
def sortLe : List (List Char) → List (List Char)
  | [] => []
  | x :: xs => insertLe x (sortLe xs)

/-- Python `" ".join`. -/
def joinSpace : List (List Char) → List Char
  | [] => []
  | [w] => w
  | w :: ws => w ++ ' ' :: joinSpace ws

/-- fuzzywuzzy `_process_and_sort`: full-process the string, split it into
tokens, sort them, join with single spaces and strip. -/
def processAndSort (s : String) : String :=
  ⟨stripL (joinSpace (sortLe (splitWs (full_process s).data [])))⟩

/-- fuzzywuzzy `fuzz.token_sort_ratio`: `fuzz.ratio` of the processed and
token-sorted forms of the two strings. -/
def tokenSortScore (s1 s2 : String) : Nat :=
  ratioScore (processAndSort s1) (processAndSort s2)

/-- app.py `compare_with_fuzzy_match` (lines 197-215): guard falsy (empty)
strings, lowercase and strip both sides, then test the maximum of
`fuzz.ratio` and `fuzz.token_sort_ratio` against the threshold (every call
site uses the default threshold 80). -/
def compare_with_fuzzy_match (str1 str2 : String) (threshold : Nat) : Bool :=
  if str1 = "" || str2 = "" then false
  else
    let s1 := fuzzy_norm str1
    let s2 := fuzzy_norm str2
    decide (threshold ≤ max (ratioScore s1 s2) (tokenSortScore s1 s2))

/-- Python `''.join(filter(str.isdigit, s))` (app.py lines 224-225). -/
def digitsL (l : List Char) : List Char := l.filter (fun c => c.isDigit)

/-- app.py lines 233-234: keep the last 10 characters (`phone_clean[-10:]`)
when at least 10 remain, otherwise keep the list as-is. -/
def last10L (l : List Char) : List Char :=
  if 10 ≤ l.length then l.drop (l.length - 10) else l

/-- Canonical form of a phone number: digits only, folded to the last 10. -/
def phone_canon (s : String) : String := ⟨last10L (digitsL s.data)⟩

/-- app.py `compare_phone_numbers` (lines 217-239): guard falsy inputs,
strip non-digits, guard empty digit strings, then compare the last 10
digits for equality. -/
def compare_phone_numbers (phone1 phone2 : String) : Bool :=
  if phone1 = "" || phone2 = "" then false
  else
    let c1 := digitsL phone1.data
    let c2 := digitsL phone2.data
    if c1.isEmpty || c2.isEmpty then false
    else last10L c1 == last10L c2

/-- app.py line 248, `.replace('/', '-')` on one character. -/
def slashToDash (c : Char) : Char := if c = '/' then '-' else c

/-- app.py line 248, `.replace('.', '-')` on one character. -/
def dotToDash (c : Char) : Char := if c = '.' then '-' else c

/-- app.py lines 248-249: `dob.strip().replace('/', '-').replace('.', '-')`. -/
def dob_clean (s : String) : String :=
  ⟨((stripL s.data).map slashToDash).map dotToDash⟩

/-- app.py `compare_dob` (lines 241-254): guard falsy inputs, then compare
the separator-normalized strings for equality. -/
def compare_dob (dob1 dob2 : String) : Bool :=
  if dob1 = "" || dob2 = "" then false
  else dob_clean dob1 == dob_clean dob2

/-- Python truthiness of an optional string: `None` and `""` are falsy,
every other string is truthy (including whitespace-only strings). -/
def truthy : Option String → Bool
  | none => false
  | some s => !(s == "")

/-- The four-field record produced by `process_document` and
`extract_entities_using_groq`: each field is an optional string (`null` in
the extraction JSON becomes `none`). -/
structure ExtractedInfo where
  name : Option String
  phone : Option String
  dob : Option String
  address : Option String

/-- Accumulator of `compare_extracted_info`: the `matches` list, the
`mismatches` list and the `match_details` map (an association list in
insertion order). -/
abbrev Acc3 := List String × List String × List (String × String)

/-- One field block of `compare_extracted_info` (e.g. lines 266-276): when
both sides are truthy, run the comparator and append the field to matches or
mismatches together with its detail message; otherwise leave the accumulator
unchanged (the field is skipped). -/
def compareField (fname : String) (a b : Option String)
    (cmp : String → String → Bool) (okMsg badMsg : String) (acc : Acc3) : Acc3 :=
  if truthy a && truthy b then
    if cmp (a.getD "") (b.getD "") then
      (acc.1 ++ [fname], acc.2.1, acc.2.2 ++ [(fname, okMsg)])
    else
      (acc.1, acc.2.1 ++ [fname], acc.2.2 ++ [(fname, badMsg)])
  else acc

/-- The per-field comparators used by `compare_extracted_info`, kept as an
explicit record so that independence of the outcome from the comparator of a
skipped field can be stated. -/
structure Comparators where
  nameCmp : String → String → Bool
  phoneCmp : String → String → Bool
  dobCmp : String → String → Bool
  addressCmp : String → String → Bool

/-- Result of `compare_extracted_info`: the tuple
`(is_verified, matches, mismatches, match_details)`; the Python `matches`
and `mismatches` lists are the `matched` and `mismatched` fields here
(`matches` is reserved syntax in Lean). -/
structure CompareResult where
  verified : Bool
  matched : List String
  mismatched : List String
  details : List (String × String)
  deriving DecidableEq

/-- app.py `compare_extracted_info` (lines 256-318), parametric in the four
comparators: compare name, phone, dob and address in this order, then the
verdict is `len(matches) >= 2`. -/
def cei_gen (C : Comparators) (id_info bank_info : ExtractedInfo) : CompareResult :=
  let a1 := compareField "name" id_info.name bank_info.name C.nameCmp
    "Matched with high confidence" "Names differ significantly" ([], [], [])
  let a2 := compareField "phone" id_info.phone bank_info.phone C.phoneCmp
    "Phone numbers match" "Phone numbers differ" a1
  let a3 := compareField "dob" id_info.dob bank_info.dob C.dobCmp
    "Dates of birth match" "Dates of birth differ" a2
  let a4 := compareField "address" id_info.address bank_info.address C.addressCmp
    "Addresses match with high similarity" "Addresses differ significantly" a3
  { verified := decide (2 ≤ a4.1.length), matched := a4.1,
    mismatched := a4.2.1, details := a4.2.2 }

/-- The comparators appearing in app.py lines 268, 280, 292 and 304: fuzzy
matching at the default threshold 80 for name and address, exact canonical
comparison for phone and dob. -/
def defaultComparators : Comparators :=
  { nameCmp := fun a b => compare_with_fuzzy_match a b 80
    phoneCmp := compare_phone_numbers
    dobCmp := compare_dob
    addressCmp := fun a b => compare_with_fuzzy_match a b 80 }

/-- app.py `compare_extracted_info` with its actual comparators. -/
def compare_extracted_info (id_info bank_info : ExtractedInfo) : CompareResult :=
  cei_gen defaultComparators id_info bank_info

/-- app.py `main` (lines 377-382): a field is reported "Insufficient data
for comparison" exactly when it has no entry in `match_details`; these are
the skipped fields. -/
def skippedFields (details : List (String × String)) : List String :=
  ["name", "phone", "dob", "address"].filter
    (fun f => !((details.map Prod.fst).contains f))

/-- The four compared fields of a record. -/
inductive FieldKey
  | name
  | phone
  | dob
  | address
  deriving DecidableEq

/-- The string key of a field. -/
def fieldName : FieldKey → String
  | .name => "name"
  | .phone => "phone"
  | .dob => "dob"
  | .address => "address"

/-- Field accessor of a record. -/
def getF (r : ExtractedInfo) : FieldKey → Option String
  | .name => r.name
  | .phone => r.phone
  | .dob => r.dob
  | .address => r.address

/-- Comparator accessor. -/
def getCmp (C : Comparators) : FieldKey → (String → String → Bool)
  | .name => C.nameCmp
  | .phone => C.phoneCmp
  | .dob => C.dobCmp
  | .address => C.addressCmp

/-- Replace the comparator of one field. -/
def setCmp (C : Comparators) : FieldKey → (String → String → Bool) → Comparators
  | .name, g => { C with nameCmp := g }
  | .phone, g => { C with phoneCmp := g }
  | .dob, g => { C with dobCmp := g }
  | .address, g => { C with addressCmp := g }

/-- Modelled from the spec: the per-field similarity score in 0..100.  The
repository's code computes only boolean field verdicts; the spec (sections 3
and 4.2) additionally assigns each compared field a numeric score — the
maximum of the two fuzzy ratios for name/address, and binary 100/0 for phone
and dob. -/
def fieldScore (f : FieldKey) (a b : String) : Nat :=
  match f with
  | .name =>
    max (ratioScore (fuzzy_norm a) (fuzzy_norm b))
      (tokenSortScore (fuzzy_norm a) (fuzzy_norm b))
  | .address =>
    max (ratioScore (fuzzy_norm a) (fuzzy_norm b))
      (tokenSortScore (fuzzy_norm a) (fuzzy_norm b))
  | .phone => if compare_phone_numbers a b then 100 else 0
  | .dob => if compare_dob a b then 100 else 0

/-- The fields compared by `compare_extracted_info`: both sides truthy. -/
def comparedFields (id_info bank_info : ExtractedInfo) : List FieldKey :=
  [FieldKey.name, FieldKey.phone, FieldKey.dob, FieldKey.address].filter
    (fun f => truthy (getF id_info f) && truthy (getF bank_info f))

/-- Modelled from the spec: the aggregate score — the mean of the per-field
scores over the compared (non-skipped) fields, reported as 0 when no field
was compared.  This quantity is absent from src/app.py, which returns no
aggregate score; it is taken from sections 3 and 8 of the spec. -/
def aggregate_score (id_info bank_info : ExtractedInfo) : ℚ :=
  let fs := comparedFields id_info bank_info
  if fs.isEmpty then 0
  else
    (fs.map (fun f =>
      (fieldScore f ((getF id_info f).getD "") ((getF bank_info f).getD "") : ℚ))).sum
      / (fs.length : ℚ)

/-- Record of the end-to-end scenario of claim C4 (extracted side). -/
def c4Extracted : ExtractedInfo :=
  { name := some "Ravi Kumar", phone := some "+919884424114",
    dob := none, address := none }

/-- Record of the end-to-end scenario of claim C4 (stored candidate side). -/
def c4Stored : ExtractedInfo :=
  { name := some "ravi  kumar", phone := some "9884424114",
    dob := none, address := some "12 MG Road" }

/-- Record realizing matched = name and phone, mismatched = address (left). -/
def c1A : ExtractedInfo :=
  { name := some "ravi", phone := some "12345", dob := none, address := some "aaaa" }

/-- Record realizing matched = name and phone, mismatched = address (right). -/
def c1B : ExtractedInfo :=
  { name := some "ravi", phone := some "12345", dob := none, address := some "zzzz" }

/-- Record realizing matched = name, mismatched = phone and address (left). -/
def c1C : ExtractedInfo :=
  { name := some "ravi", phone := some "111", dob := none, address := some "aaaa" }

/-- Record realizing matched = name, mismatched = phone and address (right). -/
def c1D : ExtractedInfo :=
  { name := some "ravi", phone := some "222", dob := none, address := some "zzzz" }

/-- Record with a whitespace-only name (truthy in Python). -/
def wsRecordA : ExtractedInfo :=
  { name := some " ", phone := none, dob := none, address := none }

/-- Record with a present name, used against `wsRecordA`. -/
def wsRecordB : ExtractedInfo :=
  { name := some "x", phone := none, dob := none, address := none }

/-- Tests whether a character list starts with a whitespace character. -/
def headSpace (l : List Char) : Bool :=
  match l.head? with
  | some c => isSpace c
  | none => false

/-- Tests whether a character list contains an uppercase ASCII letter. -/
def anyUpper (l : List Char) : Bool :=
  l.any (fun c => decide (65 ≤ c.toNat ∧ c.toNat ≤ 90))

example : ratioScore "ravi kumar" "ravi  kumar" = 95 := by decide
example : tokenSortScore "ravi kumar" "ravi  kumar" = 100 := by decide
example : compare_with_fuzzy_match "Ravi Kumar" "ravi  kumar" 80 = true := by decide
example : compare_phone_numbers "+91 98844 24114" "9884424114" = true := by decide
example : compare_dob "1990/01/05" "1990.01.05" = true := by decide
example : compare_dob "1990-1-5" "1990-01-05" = false := by decide


theorem dropWhile_self {α : Type _} (p : α → Bool) (l : List α) :
    (l.dropWhile p).dropWhile p = l.dropWhile p := by
  induction l with
  | nil => rfl
  | cons c cs ih =>
    by_cases h : p c = true
    · rw [List.dropWhile_cons_of_pos h]; exact ih
    · rw [List.dropWhile_cons_of_neg h, List.dropWhile_cons_of_neg h]

theorem head?_dropWhile_false {α : Type _} {p : α → Bool} {c : α} :
    ∀ {l : List α}, (l.dropWhile p).head? = some c → p c = false := by
  intro l
  induction l with
  | nil => intro h; simp [List.dropWhile] at h
  | cons d ds ih =>
    intro h
    by_cases hd : p d = true
    · rw [List.dropWhile_cons_of_pos hd] at h; exact ih h
    · rw [List.dropWhile_cons_of_neg hd] at h
      simp only [List.head?_cons, Option.some.injEq] at h
      rw [← h]
      simpa using hd

theorem dropWhile_eq_self_of_head {α : Type _} {p : α → Bool} {l : List α}
    (h : ∀ c, l.head? = some c → p c = false) : l.dropWhile p = l := by
  cases l with
  | nil => rfl
  | cons c cs =>
    apply List.dropWhile_cons_of_neg
    simp [h c rfl]

theorem getLast?_dropWhile {α : Type _} {p : α → Bool} :
    ∀ l : List α, l.dropWhile p ≠ [] → (l.dropWhile p).getLast? = l.getLast? := by
  intro l
  induction l with
  | nil => intro h; simp [List.dropWhile] at h
  | cons d ds ih =>
    intro h
    by_cases hd : p d = true
    · rw [List.dropWhile_cons_of_pos hd] at h ⊢
      have hds : ds ≠ [] := by
        intro he; rw [he] at h; simp [List.dropWhile] at h
      rw [ih h]
      cases ds with
      | nil => exact absurd rfl hds
      | cons e es => rw [List.getLast?_cons_cons]
    · rw [List.dropWhile_cons_of_neg hd]

theorem stripL_head {l : List Char} {c : Char} (h : (stripL l).head? = some c) :
    isSpace c = false := by
  unfold stripL at h
  rw [List.head?_reverse] at h
  by_cases hB : (l.dropWhile isSpace).reverse.dropWhile isSpace = []
  · rw [hB] at h; simp at h
  · rw [getLast?_dropWhile _ hB, List.getLast?_reverse] at h
    exact head?_dropWhile_false h

theorem stripL_last {l : List Char} {c : Char} (h : (stripL l).reverse.head? = some c) :
    isSpace c = false := by
  unfold stripL at h
  rw [List.reverse_reverse] at h
  exact head?_dropWhile_false h

theorem stripL_idem (l : List Char) : stripL (stripL l) = stripL l := by
  have h1 : (stripL l).dropWhile isSpace = stripL l :=
    dropWhile_eq_self_of_head (fun c hc => stripL_head hc)
  have h2 : (stripL l).reverse.dropWhile isSpace = (stripL l).reverse :=
    dropWhile_eq_self_of_head (fun c hc => stripL_last hc)
  show (((stripL l).dropWhile isSpace).reverse.dropWhile isSpace).reverse = stripL l
  rw [h1, h2, List.reverse_reverse]

theorem stripL_map (f : Char → Char) (hf : ∀ c, isSpace (f c) = isSpace c)
    (l : List Char) : stripL (l.map f) = (stripL l).map f := by
  have hfe : (isSpace ∘ f) = isSpace := funext hf
  have hdw : ∀ m : List Char,
      (m.map f).dropWhile isSpace = (m.dropWhile isSpace).map f := by
    intro m
    rw [List.dropWhile_map, hfe]
  show (((l.map f).dropWhile isSpace).reverse.dropWhile isSpace).reverse
      = ((l.dropWhile isSpace).reverse.dropWhile isSpace).reverse.map f
  rw [hdw, ← List.map_reverse, hdw, ← List.map_reverse]

theorem lowerChar_toNat_of_upper {c : Char} (h1 : 65 ≤ c.toNat) (h2 : c.toNat ≤ 90) :
    (lowerChar c).toNat = c.toNat + 32 := by
  unfold lowerChar
  rw [if_pos ⟨h1, h2⟩]
  generalize hn : c.toNat = n
  rw [hn] at h1 h2
  interval_cases n <;> decide

theorem lowerChar_eq_of_not_upper {c : Char} (h : ¬(65 ≤ c.toNat ∧ c.toNat ≤ 90)) :
    lowerChar c = c := by
  unfold lowerChar
  rw [if_neg h]

theorem lowerChar_idem (c : Char) : lowerChar (lowerChar c) = lowerChar c := by
  by_cases h : 65 ≤ c.toNat ∧ c.toNat ≤ 90
  · have h1 := lowerChar_toNat_of_upper h.1 h.2
    exact lowerChar_eq_of_not_upper (by omega)
  · rw [lowerChar_eq_of_not_upper h]
    exact lowerChar_eq_of_not_upper h

theorem isSpace_lowerChar (c : Char) : isSpace (lowerChar c) = isSpace c := by
  by_cases h : 65 ≤ c.toNat ∧ c.toNat ≤ 90
  · have h1 := lowerChar_toNat_of_upper h.1 h.2
    have e1 : isSpace (lowerChar c) = false := by
      simp only [isSpace, decide_eq_false_iff_not]
      rw [h1]; omega
    have e2 : isSpace c = false := by
      simp only [isSpace, decide_eq_false_iff_not]
      omega
    rw [e1, e2]
  · rw [lowerChar_eq_of_not_upper h]

theorem fuzzy_norm_idem (s : String) : fuzzy_norm (fuzzy_norm s) = fuzzy_norm s := by
  apply String.ext
  show stripL (lowerL (stripL (lowerL s.data))) = stripL (lowerL s.data)
  unfold lowerL
  rw [← stripL_map lowerChar isSpace_lowerChar, List.map_map,
    (funext lowerChar_idem : lowerChar ∘ lowerChar = lowerChar)]
  exact stripL_idem _

theorem mem_last10L {l : List Char} {a : Char} (h : a ∈ last10L l) : a ∈ l := by
  unfold last10L at h
  split at h
  · exact List.mem_of_mem_drop h
  · exact h

theorem length_last10L (l : List Char) : (last10L l).length ≤ 10 := by
  unfold last10L
  split
  · rw [List.length_drop]; omega
  · omega

theorem last10L_of_le {l : List Char} (h : l.length ≤ 10) : last10L l = l := by
  unfold last10L
  split
  · have h0 : l.length - 10 = 0 := by omega
    rw [h0, List.drop_zero]
  · rfl

theorem phone_canon_idem (s : String) : phone_canon (phone_canon s) = phone_canon s := by
  apply String.ext
  show last10L (digitsL (last10L (digitsL s.data))) = last10L (digitsL s.data)
  have hd : digitsL (last10L (digitsL s.data)) = last10L (digitsL s.data) :=
    List.filter_eq_self.mpr (fun a ha => List.of_mem_filter (mem_last10L ha))
  rw [hd, last10L_of_le (length_last10L _)]

theorem sepChar_idem (c : Char) :
    dotToDash (slashToDash (dotToDash (slashToDash c))) = dotToDash (slashToDash c) := by
  by_cases h1 : c = '/'
  · subst h1; decide
  · by_cases h2 : c = '.'
    · subst h2; decide
    · simp [slashToDash, dotToDash, h1, h2]

theorem isSpace_slashToDash (c : Char) : isSpace (slashToDash c) = isSpace c := by
  by_cases h : c = '/'
  · subst h; decide
  · unfold slashToDash; rw [if_neg h]

theorem isSpace_dotToDash (c : Char) : isSpace (dotToDash c) = isSpace c := by
  by_cases h : c = '.'
  · subst h; decide
  · unfold dotToDash; rw [if_neg h]

theorem map_sep_idem (l : List Char) :
    (((((l.map slashToDash).map dotToDash).map slashToDash).map dotToDash) : List Char)
      = (l.map slashToDash).map dotToDash := by
  induction l with
  | nil => rfl
  | cons c cs ih =>
    simp only [List.map_cons]
    rw [sepChar_idem, ih]

theorem dob_clean_idem (s : String) : dob_clean (dob_clean s) = dob_clean s := by
  apply String.ext
  show ((stripL (((stripL s.data).map slashToDash).map dotToDash)).map slashToDash).map dotToDash
      = ((stripL s.data).map slashToDash).map dotToDash
  rw [stripL_map dotToDash isSpace_dotToDash, stripL_map slashToDash isSpace_slashToDash,
    stripL_idem]
  exact map_sep_idem (stripL s.data)

/-- C9: normalization is idempotent for every field type — lowercase plus
trim for the free-text fields, digit filtering plus last-10 folding for
phone, trim plus separator replacement for dob: applying the normalizer to
an already-normalized value returns it unchanged. -/
theorem C9_normalization_idempotent :
    (∀ s : String, fuzzy_norm (fuzzy_norm s) = fuzzy_norm s)
    ∧ (∀ s : String, phone_canon (phone_canon s) = phone_canon s)
    ∧ (∀ s : String, dob_clean (dob_clean s) = dob_clean s) :=
  ⟨fuzzy_norm_idem, phone_canon_idem, dob_clean_idem⟩

/-- Witness for C9 at concrete inputs. -/
theorem C9_witness :
    fuzzy_norm (fuzzy_norm "  Ravi  KUMAR ") = fuzzy_norm "  Ravi  KUMAR "
    ∧ phone_canon (phone_canon "+91 98844 24114") = phone_canon "+91 98844 24114"
    ∧ dob_clean (dob_clean " 1990/01.05 ") = dob_clean " 1990/01.05 " :=
  ⟨C9_normalization_idempotent.1 "  Ravi  KUMAR ",
    C9_normalization_idempotent.2.1 "+91 98844 24114",
    C9_normalization_idempotent.2.2 " 1990/01.05 "⟩

theorem last10L_ne_nil {l : List Char} (h : l ≠ []) : last10L l ≠ [] := by
  unfold last10L
  split
  · intro he
    have hl := congrArg List.length he
    rw [List.length_drop] at hl
    simp at hl
    omega
  · exact h

theorem phone_canon_eq_empty_iff (s : String) :
    phone_canon s = "" ↔ digitsL s.data = [] := by
  rw [String.ext_iff]
  show last10L (digitsL s.data) = [] ↔ digitsL s.data = []
  constructor
  · intro h
    by_contra hne
    exact last10L_ne_nil hne h
  · intro h
    rw [h]
    rfl

theorem phone_canon_eq_iff (s t : String) :
    phone_canon s = phone_canon t ↔
      last10L (digitsL s.data) = last10L (digitsL t.data) := by
  rw [String.ext_iff]
  exact Iff.rfl

theorem compare_phone_eq_canon (p1 p2 : String) :
    compare_phone_numbers p1 p2 = true ↔
      (phone_canon p1 ≠ "" ∧ phone_canon p1 = phone_canon p2) := by
  rw [phone_canon_eq_iff p1 p2, Ne, phone_canon_eq_empty_iff p1]
  simp only [compare_phone_numbers]
  split_ifs with hg he
  · simp only [Bool.false_eq_true, false_iff, not_and]
    intro h1 h2
    simp only [Bool.or_eq_true, decide_eq_true_eq] at hg
    rcases hg with e | e
    · exact h1 (by rw [e]; rfl)
    · exact last10L_ne_nil h1 (h2.trans (by rw [e]; rfl))
  · simp only [Bool.false_eq_true, false_iff, not_and]
    intro h1 h2
    simp only [Bool.or_eq_true, List.isEmpty_iff] at he
    rcases he with e | e
    · exact h1 e
    · exact last10L_ne_nil h1 (h2.trans (by rw [e]; rfl))
  · rw [beq_iff_eq]
    have hc1 : ¬(digitsL p1.data = []) := by
      intro e
      apply he
      simp [e]
    simp [hc1]

/-- C3 counterexample: for the digit-free inputs "x" and "y", both canonical
digit strings are empty and therefore equal, yet the comparator declares no
match, so "a match exactly when the two canonical digit strings are equal"
fails as stated. -/
theorem C3_counterexample :
    compare_phone_numbers "x" "y" = false ∧ phone_canon "x" = phone_canon "y" := by
  constructor
  · decide
  · decide

/-- C3 amended: the phone comparator strips every non-digit character, keeps
the last 10 digits when at least 10 remain, and declares a match exactly when
the two canonical digit strings are nonempty and equal, with no partial
credit; it is symmetric, and "+91 98844 24114" matches "9884424114". -/
theorem C3_amended_phone :
    (∀ p1 p2 : String, compare_phone_numbers p1 p2 = true ↔
      (phone_canon p1 ≠ "" ∧ phone_canon p1 = phone_canon p2))
    ∧ (∀ p1 p2 : String, compare_phone_numbers p1 p2 = compare_phone_numbers p2 p1)
    ∧ compare_phone_numbers "+91 98844 24114" "9884424114" = true := by
  refine ⟨compare_phone_eq_canon, ?_, by decide⟩
  intro p1 p2
  by_cases h : compare_phone_numbers p1 p2 = true
  · have h2 := (compare_phone_eq_canon p1 p2).mp h
    have h3 : compare_phone_numbers p2 p1 = true :=
      (compare_phone_eq_canon p2 p1).mpr ⟨by rw [← h2.2]; exact h2.1, h2.2.symm⟩
    rw [h, h3]
  · have h4 : ¬(compare_phone_numbers p2 p1 = true) := by
      intro hc
      have h2 := (compare_phone_eq_canon p2 p1).mp hc
      exact h ((compare_phone_eq_canon p1 p2).mpr ⟨by rw [← h2.2]; exact h2.1, h2.2.symm⟩)
    rw [Bool.not_eq_true] at h h4
    rw [h, h4]

/-- Witness for C3 at a concrete input pair. -/
theorem C3_witness :
    compare_phone_numbers "+919884424114" "09884424114" = true ↔
      (phone_canon "+919884424114" ≠ ""
        ∧ phone_canon "+919884424114" = phone_canon "09884424114") :=
  C3_amended_phone.1 "+919884424114" "09884424114"

/-- C6 counterexample: on two empty inputs the falsy guard returns no-match
even though the separator-normalized strings are (trivially) equal, so "a
match exactly when the resulting strings are equal" fails as stated. -/
theorem C6_counterexample :
    compare_dob "" "" = false ∧ dob_clean "" = dob_clean "" :=
  ⟨by decide, rfl⟩

/-- C6 amended: for nonempty inputs (the only ones `compare_extracted_info`
ever passes, its truthiness guard), the dob comparator trims each input,
replaces every slash and dot separator by a dash, and declares a match
exactly when the resulting strings are equal; the three listed date forms
match pairwise while "1990-1-5" does not match "1990-01-05". -/
theorem C6_dob_amended (d1 d2 : String) (h1 : d1 ≠ "") (h2 : d2 ≠ "") :
    (compare_dob d1 d2 = true ↔ dob_clean d1 = dob_clean d2)
    ∧ compare_dob "1990/01/05" "1990.01.05" = true
    ∧ compare_dob "1990/01/05" "1990-01-05" = true
    ∧ compare_dob "1990.01.05" "1990-01-05" = true
    ∧ compare_dob "1990-1-5" "1990-01-05" = false := by
  refine ⟨?_, by decide, by decide, by decide, by decide⟩
  unfold compare_dob
  split_ifs with hg
  · simp only [Bool.or_eq_true, decide_eq_true_eq] at hg
    rcases hg with e | e
    · exact absurd e h1
    · exact absurd e h2
  · exact beq_iff_eq

/-- Witness for C6 at a concrete input pair. -/
theorem C6_witness :
    (compare_dob "1990/01/05" "1990-01-05" = true ↔
      dob_clean "1990/01/05" = dob_clean "1990-01-05")
    ∧ compare_dob "1990/01/05" "1990.01.05" = true
    ∧ compare_dob "1990/01/05" "1990-01-05" = true
    ∧ compare_dob "1990.01.05" "1990-01-05" = true
    ∧ compare_dob "1990-1-5" "1990-01-05" = false :=
  C6_dob_amended "1990/01/05" "1990-01-05" (by decide) (by decide)

theorem mem_stripL {l : List Char} {a : Char} (h : a ∈ stripL l) : a ∈ l := by
  unfold stripL at h
  rw [List.mem_reverse] at h
  have h2 : a ∈ (l.dropWhile isSpace).reverse :=
    List.Sublist.mem h (List.dropWhile_sublist isSpace)
  rw [List.mem_reverse] at h2
  exact List.Sublist.mem h2 (List.dropWhile_sublist isSpace)

theorem lowerChar_not_upper (c : Char) :
    ¬(65 ≤ (lowerChar c).toNat ∧ (lowerChar c).toNat ≤ 90) := by
  by_cases h : 65 ≤ c.toNat ∧ c.toNat ≤ 90
  · have h1 := lowerChar_toNat_of_upper h.1 h.2
    omega
  · rw [lowerChar_eq_of_not_upper h]
    exact h

/-- C7 counterexample: the normalizer used for name and address is only
`str.lower().strip()`; it does not collapse internal whitespace — the raw
value "A  B" normalizes to "a  b", which still contains a run of two
consecutive spaces, refuting the claimed collapse and the claimed absence of
whitespace runs longer than one. -/
theorem C7_counterexample :
    fuzzy_norm "A  B" = "a  b"
    ∧ (fuzzy_norm "A  B").data = ['a', ' ', ' ', 'b']
    ∧ fuzzy_norm "A  B" ≠ "a b" :=
  ⟨by decide, by decide, by decide⟩

/-- C7 amended: normalization for the free-text field types consists of
lowercasing and trimming only — internal whitespace is not collapsed (word
order and spacing tolerance comes from the token-sort scorer instead); for
every raw value the normalized form has no leading whitespace, no trailing
whitespace, and no uppercase letter. -/
theorem C7_amended_normalization :
    ∀ s : String, fuzzy_norm s = ⟨stripL (lowerL s.data)⟩
    ∧ headSpace (fuzzy_norm s).data = false
    ∧ headSpace (fuzzy_norm s).data.reverse = false
    ∧ anyUpper (fuzzy_norm s).data = false := by
  intro s
  refine ⟨rfl, ?_, ?_, ?_⟩
  · unfold headSpace
    cases hh : (fuzzy_norm s).data.head? with
    | none => rfl
    | some c => exact stripL_head hh
  · unfold headSpace
    cases hh : (fuzzy_norm s).data.reverse.head? with
    | none => rfl
    | some c => exact stripL_last hh
  · unfold anyUpper
    rw [List.any_eq_false]
    intro c hc
    simp only [decide_eq_true_eq]
    have hc2 : c ∈ lowerL s.data := mem_stripL hc
    rw [lowerL] at hc2
    rcases List.mem_map.mp hc2 with ⟨d, _, rfl⟩
    exact lowerChar_not_upper d

/-- Witness for C7 at a concrete input. -/
theorem C7_witness :
    fuzzy_norm " Ab C " = ⟨stripL (lowerL " Ab C ".data)⟩
    ∧ headSpace (fuzzy_norm " Ab C ").data = false
    ∧ headSpace (fuzzy_norm " Ab C ").data.reverse = false
    ∧ anyUpper (fuzzy_norm " Ab C ").data = false :=
  C7_amended_normalization " Ab C "

theorem ratioScore_empty_left (s : String) : ratioScore "" s = 0 := rfl

theorem ratioScore_empty_right (s : String) : ratioScore s "" = 0 := by
  unfold ratioScore
  split_ifs with h
  · rfl
  · exact absurd
      (by rw [(show decide ((("" : String).data.length = 0)) = true from rfl),
        Bool.or_true]) h

theorem tokenSortScore_empty_left (s : String) : tokenSortScore "" s = 0 := by
  unfold tokenSortScore
  rw [(show processAndSort "" = "" from rfl)]
  exact ratioScore_empty_left _

theorem tokenSortScore_empty_right (s : String) : tokenSortScore s "" = 0 := by
  unfold tokenSortScore
  rw [(show processAndSort "" = "" from rfl)]
  exact ratioScore_empty_right _

theorem compare_fuzzy_eq_max (s1 s2 : String) :
    compare_with_fuzzy_match s1 s2 80 =
      decide (80 ≤ max (ratioScore (fuzzy_norm s1) (fuzzy_norm s2))
        (tokenSortScore (fuzzy_norm s1) (fuzzy_norm s2))) := by
  unfold compare_with_fuzzy_match
  split_ifs with hg
  · simp only [Bool.or_eq_true, decide_eq_true_eq] at hg
    have hz : max (ratioScore (fuzzy_norm s1) (fuzzy_norm s2))
        (tokenSortScore (fuzzy_norm s1) (fuzzy_norm s2)) = 0 := by
      rcases hg with e | e
      · subst e
        rw [(show fuzzy_norm "" = "" from rfl), ratioScore_empty_left,
          tokenSortScore_empty_left]
        simp
      · subst e
        rw [(show fuzzy_norm "" = "" from rfl), ratioScore_empty_right,
          tokenSortScore_empty_right]
        simp
    simp [hz]
  · rfl

/-- C5: for the free-text fields (name and address) the similarity score is
the maximum of the direct character-similarity ratio and the
word-order-insensitive token-sort ratio of the two normalized values, and
the field comparator returns a match exactly when that maximum reaches the
threshold 80 (the threshold both call sites use). -/
theorem C5_fuzzy_scoring :
    (∀ s1 s2 : String, compare_with_fuzzy_match s1 s2 80 =
      decide (80 ≤ max (ratioScore (fuzzy_norm s1) (fuzzy_norm s2))
        (tokenSortScore (fuzzy_norm s1) (fuzzy_norm s2))))
    ∧ defaultComparators.nameCmp = (fun a b => compare_with_fuzzy_match a b 80)
    ∧ defaultComparators.addressCmp = (fun a b => compare_with_fuzzy_match a b 80) :=
  ⟨compare_fuzzy_eq_max, rfl, rfl⟩

/-- Witness for C5 at a concrete input pair. -/
theorem C5_witness :
    compare_with_fuzzy_match "Ravi Kumar" "ravi  kumar" 80 =
      decide (80 ≤ max (ratioScore (fuzzy_norm "Ravi Kumar") (fuzzy_norm "ravi  kumar"))
        (tokenSortScore (fuzzy_norm "Ravi Kumar") (fuzzy_norm "ravi  kumar"))) :=
  C5_fuzzy_scoring.1 "Ravi Kumar" "ravi  kumar"

theorem compareField_fst_mem {x fname : String} {a b : Option String}
    {cmp : String → String → Bool} {okMsg badMsg : String} {acc : Acc3} :
    x ∈ (compareField fname a b cmp okMsg badMsg acc).1 ↔
      x ∈ acc.1 ∨ (x = fname ∧ (truthy a && truthy b) = true
        ∧ cmp (a.getD "") (b.getD "") = true) := by
  unfold compareField
  split_ifs with hg hc
  · simp [hg, hc]
  · simp [hg, hc]
  · simp [hg]

theorem compareField_snd_mem {x fname : String} {a b : Option String}
    {cmp : String → String → Bool} {okMsg badMsg : String} {acc : Acc3} :
    x ∈ (compareField fname a b cmp okMsg badMsg acc).2.1 ↔
      x ∈ acc.2.1 ∨ (x = fname ∧ (truthy a && truthy b) = true
        ∧ cmp (a.getD "") (b.getD "") = false) := by
  unfold compareField
  split_ifs with hg hc
  · simp [hg, hc]
  · simp [hg, hc]
  · simp [hg]

theorem compareField_keys_mem {x fname : String} {a b : Option String}
    {cmp : String → String → Bool} {okMsg badMsg : String} {acc : Acc3} :
    x ∈ (compareField fname a b cmp okMsg badMsg acc).2.2.map Prod.fst ↔
      x ∈ acc.2.2.map Prod.fst ∨ (x = fname ∧ (truthy a && truthy b) = true) := by
  unfold compareField
  split_ifs with hg hc
  · simp [hg]
  · simp [hg]
  · simp [hg]

theorem fieldNames_distinct :
    ("name" : String) ≠ "phone" ∧ ("name" : String) ≠ "dob"
    ∧ ("name" : String) ≠ "address"
    ∧ ("phone" : String) ≠ "name" ∧ ("phone" : String) ≠ "dob"
    ∧ ("phone" : String) ≠ "address"
    ∧ ("dob" : String) ≠ "name" ∧ ("dob" : String) ≠ "phone"
    ∧ ("dob" : String) ≠ "address"
    ∧ ("address" : String) ≠ "name" ∧ ("address" : String) ≠ "phone"
    ∧ ("address" : String) ≠ "dob" := by
  refine ⟨?_, ?_, ?_, ?_, ?_, ?_, ?_, ?_, ?_, ?_, ?_, ?_⟩ <;> decide

theorem cei_gen_matched_mem (C : Comparators) (idI bankI : ExtractedInfo) (f : FieldKey) :
    fieldName f ∈ (cei_gen C idI bankI).matched ↔
      ((truthy (getF idI f) && truthy (getF bankI f)) = true
        ∧ getCmp C f ((getF idI f).getD "") ((getF bankI f).getD "") = true) := by
  cases f <;>
    simp [cei_gen, compareField_fst_mem, fieldName, getF, getCmp, fieldNames_distinct]

theorem cei_gen_mismatched_mem (C : Comparators) (idI bankI : ExtractedInfo) (f : FieldKey) :
    fieldName f ∈ (cei_gen C idI bankI).mismatched ↔
      ((truthy (getF idI f) && truthy (getF bankI f)) = true
        ∧ getCmp C f ((getF idI f).getD "") ((getF bankI f).getD "") = false) := by
  cases f <;>
    simp [cei_gen, compareField_snd_mem, fieldName, getF, getCmp, fieldNames_distinct]

theorem cei_gen_keys_mem (C : Comparators) (idI bankI : ExtractedInfo) (f : FieldKey) :
    fieldName f ∈ (cei_gen C idI bankI).details.map Prod.fst ↔
      (truthy (getF idI f) && truthy (getF bankI f)) = true := by
  cases f <;>
    · simp only [cei_gen, fieldName]
      rw [compareField_keys_mem, compareField_keys_mem, compareField_keys_mem,
        compareField_keys_mem]
      simp [getF, fieldNames_distinct]

theorem c4_aggregate : aggregate_score c4Extracted c4Stored = 100 := by
  have h1 : comparedFields c4Extracted c4Stored = [FieldKey.name, FieldKey.phone] := by
    decide
  have h2 : fieldScore FieldKey.name ((getF c4Extracted FieldKey.name).getD "")
      ((getF c4Stored FieldKey.name).getD "") = 100 := by decide
  have h3 : fieldScore FieldKey.phone ((getF c4Extracted FieldKey.phone).getD "")
      ((getF c4Stored FieldKey.phone).getD "") = 100 := by decide
  simp only [aggregate_score, h1, List.isEmpty_cons, List.map_cons, List.map_nil,
    h2, h3, List.sum_cons, List.sum_nil, List.length_cons, List.length_nil,
    Bool.false_eq_true, if_false]
  norm_num

/-- C1: the verdict is `len(matches) >= 2` for every input pair, regardless
of how many fields are mismatched or skipped; a pair realizing matched =
name and phone with mismatched = address is verified, and a pair realizing
matched = name with mismatched = phone and address is not. -/
theorem C1_count_threshold :
    (∀ idI bankI : ExtractedInfo, (compare_extracted_info idI bankI).verified =
      decide (2 ≤ (compare_extracted_info idI bankI).matched.length))
    ∧ (compare_extracted_info c1A c1B).matched = ["name", "phone"]
    ∧ (compare_extracted_info c1A c1B).mismatched = ["address"]
    ∧ (compare_extracted_info c1A c1B).verified = true
    ∧ (compare_extracted_info c1C c1D).matched = ["name"]
    ∧ (compare_extracted_info c1C c1D).mismatched = ["phone", "address"]
    ∧ (compare_extracted_info c1C c1D).verified = false :=
  ⟨fun _ _ => rfl, by decide, by decide, by decide, by decide, by decide, by decide⟩

/-- Witness for C1 at a concrete input pair. -/
theorem C1_witness :
    (compare_extracted_info c1A c1B).verified =
      decide (2 ≤ (compare_extracted_info c1A c1B).matched.length) :=
  C1_count_threshold.1 c1A c1B

/-- C2: for every field and every pair of records, if either side's value
for that field is absent (None), the field is skipped: it never enters the
matched list, never enters the mismatched list, and the outcome is
independent of that field's comparator — the comparator is never invoked. -/
theorem C2_absent_field_skipped (f : FieldKey) (idI bankI : ExtractedInfo)
    (h : getF idI f = none ∨ getF bankI f = none) :
    fieldName f ∉ (compare_extracted_info idI bankI).matched
    ∧ fieldName f ∉ (compare_extracted_info idI bankI).mismatched
    ∧ ∀ g : String → String → Bool,
        cei_gen (setCmp defaultComparators f g) idI bankI
          = compare_extracted_info idI bankI := by
  have hg : (truthy (getF idI f) && truthy (getF bankI f)) = false := by
    rcases h with e | e <;> simp [e, truthy]
  refine ⟨?_, ?_, ?_⟩
  · simp only [compare_extracted_info]
    rw [cei_gen_matched_mem]
    simp [hg]
  · simp only [compare_extracted_info]
    rw [cei_gen_mismatched_mem]
    simp [hg]
  · intro g
    cases f <;> simp only [getF] at hg <;>
      simp [compare_extracted_info, cei_gen, setCmp, compareField, hg,
        defaultComparators]

/-- Witness for C2: the address field is absent on the extracted side of the
end-to-end scenario records. -/
theorem C2_witness :
    fieldName FieldKey.address ∉ (compare_extracted_info c4Extracted c4Stored).matched
    ∧ fieldName FieldKey.address ∉ (compare_extracted_info c4Extracted c4Stored).mismatched
    ∧ ∀ g : String → String → Bool,
        cei_gen (setCmp defaultComparators FieldKey.address g) c4Extracted c4Stored
          = compare_extracted_info c4Extracted c4Stored :=
  C2_absent_field_skipped FieldKey.address c4Extracted c4Stored (Or.inl rfl)

/-- C10: for every pair of records and every field, the matched and
mismatched lists are disjoint; a field enters one of them exactly when both
sides are present (truthy); and the detail map has an entry for exactly the
compared fields, so a skipped field never has a detail entry. -/
theorem C10_partition (idI bankI : ExtractedInfo) (f : FieldKey) :
    ¬(fieldName f ∈ (compare_extracted_info idI bankI).matched
        ∧ fieldName f ∈ (compare_extracted_info idI bankI).mismatched)
    ∧ ((truthy (getF idI f) && truthy (getF bankI f)) = true ↔
        (fieldName f ∈ (compare_extracted_info idI bankI).matched
          ∨ fieldName f ∈ (compare_extracted_info idI bankI).mismatched))
    ∧ (fieldName f ∈ (compare_extracted_info idI bankI).details.map Prod.fst ↔
        (truthy (getF idI f) && truthy (getF bankI f)) = true) := by
  simp only [compare_extracted_info]
  rw [cei_gen_matched_mem, cei_gen_mismatched_mem, cei_gen_keys_mem]
  rcases Bool.eq_false_or_eq_true
      (getCmp defaultComparators f ((getF idI f).getD "") ((getF bankI f).getD ""))
    with hk | hk <;>
    rcases Bool.eq_false_or_eq_true (truthy (getF idI f) && truthy (getF bankI f))
      with hg | hg <;>
      simp [hk, hg]

/-- Witness for C10 at a concrete instance. -/
theorem C10_witness :
    ¬(fieldName FieldKey.name ∈ (compare_extracted_info c4Extracted c4Stored).matched
        ∧ fieldName FieldKey.name ∈ (compare_extracted_info c4Extracted c4Stored).mismatched)
    ∧ ((truthy (getF c4Extracted FieldKey.name) && truthy (getF c4Stored FieldKey.name)) = true ↔
        (fieldName FieldKey.name ∈ (compare_extracted_info c4Extracted c4Stored).matched
          ∨ fieldName FieldKey.name ∈ (compare_extracted_info c4Extracted c4Stored).mismatched))
    ∧ (fieldName FieldKey.name ∈ (compare_extracted_info c4Extracted c4Stored).details.map Prod.fst ↔
        (truthy (getF c4Extracted FieldKey.name) && truthy (getF c4Stored FieldKey.name)) = true) :=
  C10_partition c4Extracted c4Stored FieldKey.name

/-- C8 counterexample: a whitespace-only value is truthy in Python, so the
name pair " " versus "x" is compared rather than skipped and lands in the
mismatched list — a whitespace-only input is not treated as absent. -/
theorem C8_counterexample :
    (compare_extracted_info wsRecordA wsRecordB).mismatched = ["name"]
    ∧ (compare_extracted_info wsRecordA wsRecordB).matched = []
    ∧ skippedFields (compare_extracted_info wsRecordA wsRecordB).details
        = ["phone", "dob", "address"] :=
  ⟨by decide, by decide, by decide⟩

/-- C8 amended: a null or empty value is treated as absent — the field is
skipped, entering neither the matched nor the mismatched list and receiving
no detail entry (it is reported as insufficient data); whitespace-only
values, by contrast, are truthy and are compared.  All functions involved
are total, so absence never raises. -/
theorem C8_amended_absent (f : FieldKey) (idI bankI : ExtractedInfo)
    (h : getF idI f = none ∨ getF idI f = some "" ∨ getF bankI f = none
      ∨ getF bankI f = some "") :
    fieldName f ∉ (compare_extracted_info idI bankI).matched
    ∧ fieldName f ∉ (compare_extracted_info idI bankI).mismatched
    ∧ fieldName f ∈ skippedFields (compare_extracted_info idI bankI).details := by
  have hg : (truthy (getF idI f) && truthy (getF bankI f)) = false := by
    rcases h with e | e | e | e <;> simp [e, truthy]
  refine ⟨?_, ?_, ?_⟩
  · simp only [compare_extracted_info]
    rw [cei_gen_matched_mem]
    simp [hg]
  · simp only [compare_extracted_info]
    rw [cei_gen_mismatched_mem]
    simp [hg]
  · have hmem : fieldName f ∉ (cei_gen defaultComparators idI bankI).details.map Prod.fst := by
      rw [cei_gen_keys_mem]
      simp [hg]
    simp only [compare_extracted_info, skippedFields]
    rw [List.mem_filter]
    constructor
    · cases f <;> simp [fieldName]
    · simp [hmem]

/-- Witness for C8: the phone field is null on both sides of the
whitespace-name records. -/
theorem C8_witness :
    fieldName FieldKey.phone ∉ (compare_extracted_info wsRecordA wsRecordB).matched
    ∧ fieldName FieldKey.phone ∉ (compare_extracted_info wsRecordA wsRecordB).mismatched
    ∧ fieldName FieldKey.phone ∈ skippedFields (compare_extracted_info wsRecordA wsRecordB).details :=
  C8_amended_absent FieldKey.phone wsRecordA wsRecordB (Or.inl rfl)

/-- C4 counterexample: in the end-to-end scenario the dob field also has an
absent side, so it is reported "Insufficient data for comparison" (skipped)
exactly like address: the skipped set is dob and address, not address
alone. -/
theorem C4_counterexample :
    skippedFields (compare_extracted_info c4Extracted c4Stored).details = ["dob", "address"]
    ∧ skippedFields (compare_extracted_info c4Extracted c4Stored).details ≠ ["address"] :=
  ⟨by decide, by decide⟩

/-- C4 amended: the end-to-end scenario yields matched = name and phone,
mismatched empty, skipped = dob and address (dob absent on both sides,
address absent on the extracted side), verdict verified; with the aggregate
score modelled from the spec as the mean of the per-field scores over the
compared fields, the aggregate score is 100. -/
theorem C4_amended_scenario :
    (compare_extracted_info c4Extracted c4Stored).matched = ["name", "phone"]
    ∧ (compare_extracted_info c4Extracted c4Stored).mismatched = []
    ∧ skippedFields (compare_extracted_info c4Extracted c4Stored).details = ["dob", "address"]
    ∧ (compare_extracted_info c4Extracted c4Stored).verified = true
    ∧ aggregate_score c4Extracted c4Stored = 100 :=
  ⟨by decide, by decide, by decide, by decide, c4_aggregate⟩
